import Mathlib

/-!
Shallow embedding of the machi-koro rules engine (card catalog, player ledger,
market deck, income calculators, special abilities, purchase services, turn
orchestration fragments and JSON snapshots), translated from the TypeScript
sources, together with theorems checking the specification's claims.
-/

namespace MachiKoro

/-- Card colors, from src/domain/value-objects/Card.ts (CardColor). -/
inductive CardColor where
  | blue | green | red | purple
deriving DecidableEq, Repr

/-- Card kinds, from src/domain/value-objects/Card.ts (CardKind). -/
inductive CardKind where
  | fruit | cog | grain | tower | cow | bread | coffee | factory
deriving DecidableEq, Repr

/-- Establishment names, from src/domain/value-objects/Card.ts (EstablishmentName). -/
inductive EName where
  | appleGarden | bakery | businessCenter | cafe | cheeseFactory | farm | forest
  | fruitMarket | furnitureFactory | grainField | mine | restraunt | shop
  | stadium | tvCenter
deriving DecidableEq, Repr

/-- Landmark names, from src/domain/value-objects/Card.ts (LandmarkName). -/
inductive LName where
  | terminal | shoppingCenter | amusementPark | radioTower
deriving DecidableEq, Repr

/-- Special rules of purple cards, from src/domain/value-objects/Card.ts (SpecialRule). -/
inductive SpecialRule where
  | take2CoinsFromEveryPlayer
  | take5CoinsFromOnePlayer
  | switch1NonTowerCardWithOnePlayer
deriving DecidableEq, Repr

/-- The string of an establishment name, as registered in CardRegistry.initialize. -/
def EName.str : EName → String
  | .appleGarden => "Apple Garden"
  | .bakery => "Bakery"
  | .businessCenter => "Business Center"
  | .cafe => "Cafe"
  | .cheeseFactory => "Cheese Factory"
  | .farm => "Farm"
  | .forest => "Forest"
  | .fruitMarket => "Fruit Market"
  | .furnitureFactory => "Furniture Factory"
  | .grainField => "Grain Field"
  | .mine => "Mine"
  | .restraunt => "Restraunt"
  | .shop => "Shop"
  | .stadium => "Stadium"
  | .tvCenter => "TV Center"

/-- The string of a landmark name, as registered in CardRegistry.initialize. -/
def LName.str : LName → String
  | .terminal => "Terminal"
  | .shoppingCenter => "Shopping Center"
  | .amusementPark => "Amusement Park"
  | .radioTower => "Radio Tower"

/-- All establishment names, in CardRegistry registration order. -/
def allENames : List EName :=
  [.grainField, .farm, .bakery, .cafe, .shop, .forest, .businessCenter,
   .tvCenter, .stadium, .cheeseFactory, .furnitureFactory, .mine,
   .restraunt, .appleGarden, .fruitMarket]

/-- All landmark names, in CardRegistry registration order. -/
def allLNames : List LName :=
  [.terminal, .shoppingCenter, .amusementPark, .radioTower]

/-- An establishment card, from src/domain/value-objects/Card.ts (EstablishmentCard).
The multiplier map is embedded as an association list of kind-factor pairs. -/
structure Establishment where
  cost : Nat
  color : CardColor
  kind : CardKind
  activationNumbers : List Nat
  income : Nat
  multiplier : List (CardKind × Nat)
  specialRule : Option SpecialRule
  isSingular : Bool
deriving DecidableEq, Repr

/-- Whether a card activates on a dice total (EstablishmentCard.activatesOn). -/
def Establishment.activatesOn (c : Establishment) (roll : Nat) : Bool :=
  c.activationNumbers.contains roll

/-- The card registry, from CardRegistry.initialize in src/domain/value-objects/Card.ts. -/
def registry : EName → Establishment
  | .grainField => ⟨1, .blue, .grain, [1], 1, [], none, false⟩
  | .farm => ⟨1, .blue, .cow, [2], 1, [], none, false⟩
  | .bakery => ⟨1, .green, .bread, [2, 3], 1, [], none, false⟩
  | .cafe => ⟨2, .red, .coffee, [3], 1, [], none, false⟩
  | .shop => ⟨2, .green, .bread, [4], 3, [], none, false⟩
  | .forest => ⟨3, .blue, .cog, [5], 1, [], none, false⟩
  | .businessCenter =>
      ⟨8, .purple, .tower, [6], 0, [], some .switch1NonTowerCardWithOnePlayer, true⟩
  | .tvCenter => ⟨7, .purple, .tower, [6], 0, [], some .take5CoinsFromOnePlayer, true⟩
  | .stadium => ⟨6, .purple, .tower, [6], 0, [], some .take2CoinsFromEveryPlayer, true⟩
  | .cheeseFactory => ⟨5, .green, .factory, [7], 0, [(.cow, 3)], none, false⟩
  | .furnitureFactory => ⟨3, .green, .factory, [8], 0, [(.cog, 3)], none, false⟩
  | .mine => ⟨6, .blue, .cog, [9], 5, [], none, false⟩
  | .restraunt => ⟨3, .red, .coffee, [9, 10], 2, [], none, false⟩
  | .appleGarden => ⟨3, .blue, .grain, [10], 3, [], none, false⟩
  | .fruitMarket => ⟨2, .green, .fruit, [11, 12], 0, [(.grain, 2)], none, false⟩

/-- Landmark costs, from CardRegistry.initialize. -/
def landmarkCost : LName → Nat
  | .terminal => 4
  | .shoppingCenter => 10
  | .amusementPark => 16
  | .radioTower => 22

/-- Modelled from the spec: EstablishmentCard.isHostileCard is referenced by
IncomeCalculator.calculateRedCardIncome and tested in Card.test.ts, but its
definition is not under src/. Per the spec's glossary, red cards steal from the
active roller, so a card is hostile exactly when its color is red. -/
def Establishment.isHostileCard (c : Establishment) : Bool :=
  c.color = .red

/-- Modelled from the spec: EstablishmentCard.isPassiveCard is tested in
Card.test.ts but its definition is not under src/. Per §4.4 of the spec the
passive channel covers color blue only. -/
def Establishment.isPassiveCard (c : Establishment) : Bool :=
  c.color = .blue

/-- A dice roll value object, from src/domain/value-objects/DiceRoll.ts
(validity of the fields is checked by the class constructor and is modelled
separately as diceRollValid). -/
structure DiceRoll where
  total : Nat
  dice : List Nat
deriving DecidableEq, Repr

/-- DiceRoll.of: build a roll from specific dice, total being their sum. -/
def DiceRoll.of (dice : List Nat) : DiceRoll :=
  ⟨dice.sum, dice⟩

/-- The validation performed by the DiceRoll constructor: 1 or 2 dice, each
face in 1..6, total equal to the sum of the dice. -/
def diceRollValid (r : DiceRoll) : Bool :=
  decide (1 ≤ r.dice.length) && decide (r.dice.length ≤ 2) &&
  r.dice.all (fun d => decide (1 ≤ d) && decide (d ≤ 6)) &&
  decide (r.total = r.dice.sum)

/-- A player, from src/domain/entities/Player.ts. The establishments Map is
embedded as a count function over establishment names and the landmark Set as
a Boolean predicate over landmark names; money is the non-negative integer
wrapped by the Money value object. -/
structure Player where
  id : String
  name : String
  money : Nat
  counts : EName → Nat
  landmarks : LName → Bool

/-- Money.add through Player.addMoney. -/
def Player.addMoney (p : Player) (n : Nat) : Player :=
  { p with money := p.money + n }

/-- Money.subtract through Player.removeMoney: clamps at zero, which is what
truncated Nat subtraction does. -/
def Player.removeMoney (p : Player) (n : Nat) : Player :=
  { p with money := p.money - n }

/-- Money.canAfford through Player.canAfford. -/
def Player.canAfford (p : Player) (cost : Nat) : Bool :=
  decide (cost ≤ p.money)

/-- Player.getEstablishmentCount. -/
def Player.getEstablishmentCount (p : Player) (e : EName) : Nat :=
  p.counts e

/-- Player.hasEstablishment. -/
def Player.hasEstablishment (p : Player) (e : EName) : Bool :=
  decide (0 < p.counts e)

/-- Player.addEstablishment: one more copy of the card. -/
def Player.addEstablishment (p : Player) (e : EName) : Player :=
  { p with counts := fun x => if x = e then p.counts e + 1 else p.counts x }

/-- Player.removeEstablishment: false and no change when the card is not
owned, otherwise one copy fewer (the Map-entry deletion at count one is
invisible in the count-function embedding). -/
def Player.removeEstablishment (p : Player) (e : EName) : Bool × Player :=
  if p.counts e = 0 then
    (false, p)
  else
    (true, { p with counts := fun x => if x = e then p.counts e - 1 else p.counts x })

/-- Player.hasLandmark. -/
def Player.hasLandmark (p : Player) (l : LName) : Bool :=
  p.landmarks l

/-- Player.buildLandmark. -/
def Player.buildLandmark (p : Player) (l : LName) : Player :=
  { p with landmarks := fun x => if x = l then true else p.landmarks x }

/-- Player.getEstablishmentCards: each owned card, repeated once per owned
copy (the Map iteration materialised in registration order). -/
def Player.getEstablishmentCards (p : Player) : List Establishment :=
  allENames.flatMap fun e => List.replicate (p.counts e) (registry e)

/-- Player.getEstablishmentCountByKind: total copies over owned establishments
of the given kind. -/
def Player.getEstablishmentCountByKind (p : Player) (k : CardKind) : Nat :=
  (allENames.map fun e => if (registry e).kind = k then p.counts e else 0).sum

/-- The multiplier contribution within IncomeCalculator.calculateIncome: for
each multiplier entry, the owner's count of that kind times the factor. -/
def multiplierIncome (p : Player) (c : Establishment) : Nat :=
  (c.multiplier.map fun km => p.getEstablishmentCountByKind km.1 * km.2).sum

/-- The Shopping Center bonus applied inside the income calculators: plus one
when the owner holds the landmark and the card's kind is bread or coffee. -/
def shoppingBonus (p : Player) (c : Establishment) : Nat :=
  if p.hasLandmark .shoppingCenter ∧ (c.kind = .bread ∨ c.kind = .coffee) then 1 else 0

/-- IncomeCalculator.calculateIncome from
src/domain/services/IncomeCalculator.ts: over every owned card instance, skip
cards not activating on the roll total, otherwise add base income, multiplier
contributions and the Shopping Center bonus. Note the source applies no color
filter here. -/
def calculateIncome (p : Player) (roll : DiceRoll) : Nat :=
  (p.getEstablishmentCards.map fun c =>
    if c.activatesOn roll.total then c.income + multiplierIncome p c + shoppingBonus p c
    else 0).sum

/-- IncomeCalculator.calculateRedCardIncome from
src/domain/services/IncomeCalculator.ts: over every owned card instance, keep
hostile cards activating on the roll, adding base income plus the Shopping
Center bonus (no multiplier loop in this source function). -/
def calculateRedCardIncome (p : Player) (roll : DiceRoll) : Nat :=
  (p.getEstablishmentCards.map fun c =>
    if c.isHostileCard && c.activatesOn roll.total then c.income + shoppingBonus p c
    else 0).sum

/-- Modelled from the spec: IncomeCalculator.calculateHostileIncome is called
from engine.ts and tested in IncomeCalculator.test.ts but its definition is
not under src/. Per spec §4.4 and §7 the transferred amount is the red-card
income pre-clamped to the payer's (active player's) balance, which matches
every test case. -/
def calculateHostileIncome (target active : Player) (roll : DiceRoll) : Nat :=
  min (calculateRedCardIncome target roll) active.money

/-- getPlayersToProcess from src/utils.ts, on seat indices: the seats rotated
so that the active seat comes first (players.slice(i).concat(players.slice(0,i))). -/
def getPlayersToProcessIdx (activeIdx n : Nat) : List Nat :=
  (List.range n).drop activeIdx ++ (List.range n).take activeIdx

/-- One seat's hostile-channel step inside engine.ts processPlayer: the active
seat is skipped (isActivePlayer branch); for any other seat, compute the
hostile income against the active player's current balance and, when positive,
move min(hostileIncome, activeBudget) from the active player to the owner. -/
def hostileStep (roll : DiceRoll) (activeIdx : Nat) (st : List Player) (j : Nat) :
    List Player :=
  if j = activeIdx then st
  else
    match st.get? activeIdx, st.get? j with
    | some active, some p =>
        let hostileIncome := calculateHostileIncome p active roll
        if 0 < hostileIncome then
          let stolen := min hostileIncome active.money
          (st.set activeIdx { active with money := active.money - stolen }).set j
            { p with money := p.money + stolen }
        else st
    | _, _ => st

/-- The hostile-transfer portion of engine.ts process/processPlayer: every seat
in getPlayersToProcess order performs its hostile step against the live player
list. The other income channels interleaved in the source touch neither the
active player's balance nor the red-card draws, so they are embedded
separately (calculateIncome and the passive channel). -/
def processHostilePhase (players : List Player) (activeIdx : Nat) (roll : DiceRoll) :
    List Player :=
  (getPlayersToProcessIdx activeIdx players.length).foldl (hostileStep roll activeIdx) players

/-- The per-instance hostile income of each red card the owner has matching
the roll, in card-list order: base income plus the Shopping Center bonus. -/
def redCardInstances (p : Player) (rollTotal : Nat) : List Nat :=
  (p.getEstablishmentCards.filter fun c => c.isHostileCard && c.activatesOn rollTotal).map
    fun c => c.income + shoppingBonus p c

/-- Sequential draws from a balance, one per card instance: each draw takes
min(cardIncome, remaining balance). Returns (total received, remaining balance). -/
def drawSequential (amounts : List Nat) (activeMoney : Nat) : Nat × Nat :=
  amounts.foldl (fun acc a => let amt := min a acc.2; (acc.1 + amt, acc.2 - amt))
    (0, activeMoney)

/-- Hostile income resolution written from the spec's words (§4.4): in fixed
seating order starting the seat after the active player, each non-active owner
draws, per red card matching the roll, min(cardIncome, the active player's
money at that moment); the drawn amounts move from the active player to the
owner. Stated as the comparison point for the source embedding
processHostilePhase. -/
def specHostileResolution (players : List Player) (activeIdx : Nat) (roll : DiceRoll) :
    List Player :=
  let n := players.length
  let order := (List.range n).drop (activeIdx + 1) ++ (List.range n).take activeIdx
  order.foldl
    (fun st j =>
      match st.get? activeIdx, st.get? j with
      | some active, some p =>
          let res := drawSequential (redCardInstances p roll.total) active.money
          (st.set activeIdx { active with money := res.2 }).set j
            { p with money := p.money + res.1 }
      | _, _ => st)
    players

/-- The seat-j step of specHostileResolution, named for the proofs. -/
def specHostileStep (roll : DiceRoll) (activeIdx : Nat) (st : List Player) (j : Nat) :
    List Player :=
  match st.get? activeIdx, st.get? j with
  | some active, some p =>
      let res := drawSequential (redCardInstances p roll.total) active.money
      (st.set activeIdx { active with money := res.2 }).set j
        { p with money := p.money + res.1 }
  | _, _ => st

/-- Result record of a special ability, from SpecialAbilityService.ts. -/
structure SpecialAbilityResult where
  moneyGained : Nat
  description : String
deriving DecidableEq, Repr

/-- Helper walking the list as Array.prototype.reduce does in executeTVCenter:
keeps the running best (seat index, player), replacing it only when a later
player has strictly more money. -/
def pickRichestAux (l : List Player) (i : Nat) (best : Nat × Player) : Nat × Player :=
  match l with
  | [] => best
  | p :: rest =>
      pickRichestAux rest (i + 1) (if best.2.money < p.money then (i, p) else best)

/-- executeTVCenter from src/domain/services/SpecialAbilityService.ts: with no
other players, a no-op with a descriptive message; otherwise find the richest
other player by reduce (first encountered wins ties), take min(5, their
money), and when positive move it to the active player. Returns the result,
the updated active player and the updated list of other players. -/
def executeTVCenter (activePlayer : Player) (otherPlayers : List Player) :
    SpecialAbilityResult × Player × List Player :=
  match otherPlayers with
  | [] =>
      (⟨0, "No other players to take coins from (TV Center)"⟩, activePlayer, otherPlayers)
  | o :: rest =>
      let best := pickRichestAux rest 1 (0, o)
      let richestPlayer := best.2
      let payment := min 5 richestPlayer.money
      let description :=
        "Took " ++ Nat.repr payment ++ " coins from " ++ richestPlayer.name ++ " (TV Center)"
      if 0 < payment then
        (⟨payment, description⟩, activePlayer.addMoney payment,
         otherPlayers.set best.1 (richestPlayer.removeMoney payment))
      else
        (⟨payment, description⟩, activePlayer, otherPlayers)

/-- The market deck, from src/domain/entities/MarketDeck.ts: remaining supply
per establishment name (the Map with a zero default embedded as a function). -/
structure MarketDeck where
  id : String
  quantities : EName → Nat

/-- MarketDeck.isAvailable. -/
def MarketDeck.isAvailable (m : MarketDeck) (e : EName) : Bool :=
  decide (0 < m.quantities e)

/-- MarketDeck.getAvailableQuantity. -/
def MarketDeck.getAvailableQuantity (m : MarketDeck) (e : EName) : Nat :=
  m.quantities e

/-- MarketDeck.purchase: when available, decrement the quantity and return the
registry card; otherwise return none and leave the deck unchanged. -/
def MarketDeck.purchase (m : MarketDeck) (e : EName) : Option Establishment × MarketDeck :=
  if m.isAvailable e then
    (some (registry e),
     { m with quantities := fun x => if x = e then m.quantities e - 1 else m.quantities x })
  else
    (none, m)

/-- MarketDeck.restock: throws on a negative quantity (modelled as none),
otherwise adds the quantity to the current supply. -/
def MarketDeck.restock (m : MarketDeck) (e : EName) (q : Int) : Option MarketDeck :=
  if q < 0 then none
  else
    some { m with
      quantities := fun x => if x = e then m.quantities e + q.toNat else m.quantities x }

/-- One market operation of the purchase/restock sequences in spec §8. -/
inductive MarketOp where
  | purchase (e : EName)
  | restock (e : EName) (q : Int)

/-- Run a sequence of market operations; a rejected (negative) restock throws,
aborting the run. -/
def runOps (m : MarketDeck) : List MarketOp → Option MarketDeck
  | [] => some m
  | .purchase e :: ops => runOps (m.purchase e).2 ops
  | .restock e q :: ops =>
      match m.restock e q with
      | none => none
      | some m' => runOps m' ops

/-- The number of successful purchases of a given name during a run. -/
def succPurchases : MarketDeck → List MarketOp → EName → Nat
  | _, [], _ => 0
  | m, .purchase e :: rest, n =>
      (if e = n ∧ m.isAvailable e then 1 else 0) + succPurchases (m.purchase e).2 rest n
  | m, .restock e q :: rest, n =>
      match m.restock e q with
      | none => 0
      | some m' => succPurchases m' rest n

/-- The total restocked amount for a given name over a list of operations. -/
def restockSum : List MarketOp → EName → Int
  | [], _ => 0
  | .purchase _ :: rest, n => restockSum rest n
  | .restock e q :: rest, n => (if e = n then q else 0) + restockSum rest n

/-- Result record of a card swap, from CardSwapService.ts. -/
structure CardSwapResult where
  success : Bool
  message : String
deriving DecidableEq, Repr

/-- CardSwapService.swapCards from src/domain/services/CardSwapService.ts:
validate that neither card is purple, that the active player owns the card
to give and the other player the card to take, then move one copy each way.
Returns the result together with the updated active and other players. -/
def swapCards (activePlayer otherPlayer : Player) (giveCardName takeCardName : EName) :
    CardSwapResult × Player × Player :=
  let giveCard := registry giveCardName
  let takeCard := registry takeCardName
  if giveCard.color = .purple then
    (⟨false, "Cannot swap purple cards (" ++ giveCardName.str ++ " is purple)"⟩,
     activePlayer, otherPlayer)
  else if takeCard.color = .purple then
    (⟨false, "Cannot swap purple cards (" ++ takeCardName.str ++ " is purple)"⟩,
     activePlayer, otherPlayer)
  else if !activePlayer.hasEstablishment giveCardName then
    (⟨false, activePlayer.name ++ " does not have " ++ giveCardName.str ++ " to give"⟩,
     activePlayer, otherPlayer)
  else if !otherPlayer.hasEstablishment takeCardName then
    (⟨false, otherPlayer.name ++ " does not have " ++ takeCardName.str ++ " to take"⟩,
     activePlayer, otherPlayer)
  else
    let active1 := (activePlayer.removeEstablishment giveCardName).2
    let other1 := otherPlayer.addEstablishment giveCardName
    let other2 := (other1.removeEstablishment takeCardName).2
    let active2 := active1.addEstablishment takeCardName
    (⟨true, activePlayer.name ++ " swapped " ++ giveCardName.str ++ " with " ++
        otherPlayer.name ++ " for " ++ takeCardName.str⟩,
     active2, other2)

/-- The cardType tag of a purchase result, from PurchaseService.ts. -/
inductive CardType where
  | establishment | landmark
deriving DecidableEq, Repr

/-- Result record of a purchase, from PurchaseService.ts. -/
structure PurchaseResult where
  success : Bool
  message : String
  cardType : Option CardType
deriving DecidableEq, Repr

/-- PurchaseService.purchaseEstablishment: fail out-of-stock, then
cannot-afford, then already-own-singular, in that order; otherwise decrement
the market, debit the player and add the establishment. Returns the result
with the updated player and market. -/
def purchaseEstablishment (player : Player) (cardName : EName) (market : MarketDeck) :
    PurchaseResult × Player × MarketDeck :=
  let card := registry cardName
  if !market.isAvailable cardName then
    (⟨false, cardName.str ++ " is out of stock", none⟩, player, market)
  else if !player.canAfford card.cost then
    (⟨false, "Cannot afford " ++ cardName.str ++ " (costs " ++ Nat.repr card.cost ++
        ", have " ++ Nat.repr player.money ++ ")", none⟩, player, market)
  else if card.isSingular && player.hasEstablishment cardName then
    (⟨false, "Already own " ++ cardName.str ++ " (singular card)", none⟩, player, market)
  else
    (⟨true, "Purchased " ++ cardName.str ++ " for " ++ Nat.repr card.cost ++ " coins",
      some .establishment⟩,
     (player.removeMoney card.cost).addEstablishment cardName,
     (market.purchase cardName).2)

/-- PurchaseService.purchaseLandmark: fail already-built, then cannot-afford;
otherwise debit the player and build the landmark. -/
def purchaseLandmark (player : Player) (landmarkName : LName) : PurchaseResult × Player :=
  let cost := landmarkCost landmarkName
  if player.hasLandmark landmarkName then
    (⟨false, "Already built " ++ landmarkName.str, none⟩, player)
  else if !player.canAfford cost then
    (⟨false, "Cannot afford " ++ landmarkName.str ++ " (costs " ++ Nat.repr cost ++
        ", have " ++ Nat.repr player.money ++ ")", none⟩, player)
  else
    (⟨true, "Built " ++ landmarkName.str ++ " for " ++ Nat.repr cost ++ " coins",
      some .landmark⟩,
     (player.removeMoney cost).buildLandmark landmarkName)

/-- CardRegistry.getEstablishment by raw string: the Map lookup that throws on
an unknown name, embedded as an Option over the registered names. -/
def getEstablishmentByStr (s : String) : Option EName :=
  allENames.find? fun e => e.str == s

/-- CardRegistry.getLandmark by raw string, likewise. -/
def getLandmarkByStr (s : String) : Option LName :=
  allLNames.find? fun l => l.str == s

/-- PurchaseService.purchase, the convenience entry point: try the name as an
establishment first (an unknown-establishment throw is caught); a result is
returned unless it is exactly the out-of-stock failure, which falls through to
the landmark path; an unknown-landmark throw is caught and reported as
Unknown card. -/
def purchase (player : Player) (cardName : String) (market : MarketDeck) :
    PurchaseResult × Player × MarketDeck :=
  let estResult :=
    match getEstablishmentByStr cardName with
    | some e =>
        let r := purchaseEstablishment player e market
        if r.1.success || r.1.message != cardName ++ " is out of stock" then some r else none
    | none => none
  match estResult with
  | some r => r
  | none =>
      match getLandmarkByStr cardName with
      | some l =>
          let r := purchaseLandmark player l
          (r.1, r.2, market)
      | none => (⟨false, "Unknown card: " ++ cardName, none⟩, player, market)

/-- The dice-count decision at the top of executeTurn (GameRunner.ts and the
GameAdapter.ts copy): the Strategy's requested count, forced down to a single
die when the active player lacks the Terminal landmark. -/
def initialDiceCount (hasTerminal : Bool) (requested : Nat) : Nat :=
  if !hasTerminal && decide (1 < requested) then 1 else requested

/-- The roll-and-reroll fragment of executeTurn, with randomness supplied as a
stream of die faces: take initialDiceCount faces for the first roll; then,
only when the active player holds Radio Tower and the Strategy returns a
truthy reroll count, replace the roll with that many fresh faces. The source
applies no Terminal check to the reroll count. -/
def executeTurnRollDice (hasTerminal hasRadioTower : Bool) (strategyRoll : Nat)
    (strategyReroll : Option Nat) (stream : List Nat) : List Nat :=
  let numDice := initialDiceCount hasTerminal strategyRoll
  let firstRoll := stream.take numDice
  if hasRadioTower then
    match strategyReroll with
    | some n => if n ≠ 0 then (stream.drop numDice).take n else firstRoll
    | none => firstRoll
  else firstRoll

/-- Game status, from src/domain/entities/Game.ts (GameStatus). -/
inductive GameStatus where
  | waiting | inProgress | finished
deriving DecidableEq, Repr

/-- The Game aggregate, from src/domain/entities/Game.ts (the 2..4 player
count is checked by the constructor, modelled in mkGame). -/
structure Game where
  id : String
  players : List Player
  marketDeck : MarketDeck
  currentPlayerIndex : Nat
  status : GameStatus
  winner : Option Player
  lastDiceRoll : Option DiceRoll

/-- The Game constructor's validation: 2 to 4 players, else throw. -/
def mkGame (id : String) (players : List Player) (marketDeck : MarketDeck)
    (currentPlayerIndex : Nat) (status : GameStatus) (winner : Option Player)
    (lastDiceRoll : Option DiceRoll) : Option Game :=
  if 2 ≤ players.length ∧ players.length ≤ 4 then
    some ⟨id, players, marketDeck, currentPlayerIndex, status, winner, lastDiceRoll⟩
  else none

/-- Player.toJSON output shape: id, name, money as an integer, the
establishments map and the landmark set. -/
structure PlayerJson where
  id : String
  name : String
  money : Nat
  establishments : EName → Nat
  landmarks : LName → Bool

/-- Player.toJSON. -/
def Player.toJSON (p : Player) : PlayerJson :=
  ⟨p.id, p.name, p.money, p.counts, p.landmarks⟩

/-- Player.fromJSON (Money.fromJSON being Money.of on the integer). -/
def Player.fromJSON (j : PlayerJson) : Player :=
  ⟨j.id, j.name, j.money, j.establishments, j.landmarks⟩

/-- MarketDeck.toJSON output shape. -/
structure MarketJson where
  id : String
  quantities : EName → Nat

/-- MarketDeck.toJSON. -/
def MarketDeck.toJSON (m : MarketDeck) : MarketJson :=
  ⟨m.id, m.quantities⟩

/-- MarketDeck.fromJSON. -/
def MarketDeck.fromJSON (j : MarketJson) : MarketDeck :=
  ⟨j.id, j.quantities⟩

/-- DiceRoll.toJSON output shape. -/
structure RollJson where
  total : Nat
  dice : List Nat
deriving DecidableEq, Repr

/-- DiceRoll.toJSON. -/
def DiceRoll.toJSON (r : DiceRoll) : RollJson :=
  ⟨r.total, r.dice⟩

/-- DiceRoll.fromJSON: the constructor re-validates the fields and throws on
malformed data, modelled as none. -/
def DiceRoll.fromJSON (j : RollJson) : Option DiceRoll :=
  if diceRollValid ⟨j.total, j.dice⟩ then some ⟨j.total, j.dice⟩ else none

/-- Game.toJSON output shape, with winner as the winner's id or null. -/
structure GameJson where
  id : String
  players : List PlayerJson
  marketDeck : MarketJson
  currentPlayerIndex : Nat
  status : GameStatus
  winner : Option String
  lastDiceRoll : Option RollJson

/-- Game.toJSON. -/
def Game.toJSON (g : Game) : GameJson :=
  ⟨g.id, g.players.map Player.toJSON, g.marketDeck.toJSON, g.currentPlayerIndex,
   g.status, g.winner.map Player.id, g.lastDiceRoll.map DiceRoll.toJSON⟩

/-- Game.fromJSON: rebuild the players and market, resolve the winner by
finding the first player with the stored id (the JavaScript truthiness test
treats both null and the empty string as no winner), re-validate the stored
dice roll, and run the constructor's player-count check. -/
def Game.fromJSON (d : GameJson) : Option Game :=
  let players := d.players.map Player.fromJSON
  let winner : Option Player :=
    match d.winner with
    | none => none
    | some w => if w == "" then none else players.find? fun p => p.id == w
  match d.lastDiceRoll with
  | none =>
      mkGame d.id players (MarketDeck.fromJSON d.marketDeck) d.currentPlayerIndex
        d.status winner none
  | some rj =>
      (DiceRoll.fromJSON rj).bind fun r =>
        mkGame d.id players (MarketDeck.fromJSON d.marketDeck) d.currentPlayerIndex
          d.status winner (some r)

/-- Player.create: a fresh player with 3 coins, one Grain Field and one Bakery. -/
def Player.create (id nm : String) : Player :=
  ⟨id, nm, 3,
   fun e => if e = .grainField then 1 else if e = .bakery then 1 else 0,
   fun _ => false⟩

/-- The clean player of the IncomeCalculator.bug.test.ts scenario: 3 coins,
exactly one Cafe, no landmarks. -/
def cafeOnlyPlayer : Player :=
  ⟨"p1", "Alice", 3, fun e => if e = .cafe then 1 else 0, fun _ => false⟩

/-- The multiplier example: a player owning 2 Farms (cow kind) and 1 Cheese
Factory (multiplier 3 per cow). -/
def cheeseExamplePlayer : Player :=
  ⟨"p1", "Alice", 3,
   fun e => if e = .farm then 2 else if e = .cheeseFactory then 1 else 0,
   fun _ => false⟩

/-- A player owning two Cafes, for the hostile-income instances. -/
def twoCafeOwner (id nm : String) : Player :=
  ⟨id, nm, 3, fun e => if e = .cafe then 2 else 0, fun _ => false⟩

/-- A game whose stored winner is not among its players. -/
def strayWinnerGame : Game :=
  ⟨"game-1", [Player.create "p1" "Alice", Player.create "p2" "Bob"],
   ⟨"market-1", fun _ => 6⟩, 0, .finished, some (Player.create "p3" "Carol"), none⟩

/-- A game whose winner is its first player and whose last roll is valid. -/
def resolvableWinnerGame : Game :=
  ⟨"game-1", [Player.create "p1" "Alice", Player.create "p2" "Bob"],
   ⟨"market-1", fun _ => 6⟩, 0, .finished, some (Player.create "p1" "Alice"),
   some ⟨3, [3]⟩⟩

section Helpers

/-- Setting a list position to the value it already holds is the identity. -/
theorem set_get?_self {α : Type _} (l : List α) (i : Nat) (a : α)
    (h : l.get? i = some a) : l.set i a = l := by
  induction l generalizing i with
  | nil => simp at h
  | cons x xs ih =>
      cases i with
      | zero => simp_all [List.get?]
      | succ k => simp_all [List.get?, List.set]

/-- Summing a function over a filtered list equals summing the function
guarded by the filter predicate over the whole list. -/
theorem sum_map_filter_eq_sum_ite {α : Type _} (l : List α) (p : α → Bool)
    (f : α → Nat) :
    ((l.filter p).map f).sum = (l.map fun c => if p c then f c else 0).sum := by
  induction l with
  | nil => rfl
  | cons x xs ih => by_cases h : p x <;> simp [List.filter, h, ih]

/-- calculateRedCardIncome is the sum of the per-instance hostile incomes. -/
theorem calculateRedCardIncome_eq_sum (p : Player) (roll : DiceRoll) :
    calculateRedCardIncome p roll = (redCardInstances p roll.total).sum := by
  unfold calculateRedCardIncome redCardInstances
  rw [sum_map_filter_eq_sum_ite]

/-- drawSequential folds: sequential clamped draws sum to the clamp of the
total, depleting the balance by exactly that amount. -/
theorem drawSequential_foldl (l : List Nat) (a m : Nat) :
    l.foldl (fun acc x => let amt := min x acc.2; (acc.1 + amt, acc.2 - amt)) (a, m) =
      (a + min l.sum m, m - min l.sum m) := by
  induction l generalizing a m with
  | nil => simp
  | cons x xs ih =>
      simp only [List.foldl_cons, List.sum_cons]
      rw [ih, Prod.mk.injEq]
      constructor <;> omega

/-- drawSequential in closed form. -/
theorem drawSequential_eq (l : List Nat) (m : Nat) :
    drawSequential l m = (min l.sum m, m - min l.sum m) := by
  unfold drawSequential
  rw [drawSequential_foldl]
  simp

/-- For a seat other than the active one, the engine's hostile step agrees
with the spec's per-card sequential draws. -/
theorem hostileStep_eq_specHostileStep (roll : DiceRoll) (activeIdx j : Nat)
    (hj : j ≠ activeIdx) (st : List Player) :
    hostileStep roll activeIdx st j = specHostileStep roll activeIdx st j := by
  unfold hostileStep specHostileStep
  rw [if_neg hj]
  cases hA : st.get? activeIdx with
  | none => rfl
  | some active =>
      cases hP : st.get? j with
      | none => rfl
      | some p =>
          simp only
          rw [drawSequential_eq, calculateHostileIncome,
            calculateRedCardIncome_eq_sum]
          set s := (redCardInstances p roll.total).sum with hs
          by_cases hpos : 0 < min s active.money
          · rw [if_pos hpos]
            have : min (min s active.money) active.money = min s active.money := by omega
            rw [this]
          · rw [if_neg hpos]
            have hzero : min s active.money = 0 := by omega
            rw [hzero]
            have h1 : st.set activeIdx { active with money := active.money - 0 } = st := by
              have : ({ active with money := active.money - 0 } : Player) = active := by
                simp
              rw [this]
              exact set_get?_self st activeIdx active hA
            rw [h1]
            have h2 : ({ p with money := p.money + 0 } : Player) = p := by simp
            rw [h2]
            exact (set_get?_self st j p hP).symm ▸ rfl

/-- Folding the engine's hostile step over seats avoiding the active seat is
the same as folding the spec's step. -/
theorem foldl_hostileStep_eq (roll : DiceRoll) (activeIdx : Nat) (order : List Nat) :
    ∀ st : List Player, (∀ j ∈ order, j ≠ activeIdx) →
      order.foldl (hostileStep roll activeIdx) st =
        order.foldl (specHostileStep roll activeIdx) st := by
  induction order with
  | nil => intro st _; rfl
  | cons j rest ih =>
      intro st hmem
      simp only [List.foldl_cons]
      rw [hostileStep_eq_specHostileStep roll activeIdx j (hmem j (by simp)) st]
      exact ih _ fun x hx => hmem x (by simp [hx])

/-- Every seat in the after-the-active processing order differs from the
active seat. -/
theorem mem_order_ne_active {n i j : Nat}
    (hj : j ∈ (List.range n).drop (i + 1) ++ (List.range n).take i) : j ≠ i := by
  rcases List.mem_append.mp hj with h | h
  · obtain ⟨m, hm⟩ := List.mem_iff_getElem?.mp h
    rw [List.getElem?_drop] at hm
    obtain ⟨hlt, heq⟩ := List.getElem?_eq_some.mp hm
    rw [List.getElem_range] at heq
    omega
  · rw [List.take_range] at h
    have := List.mem_range.mp h
    omega

/-- With the active seat in range, the rotated processing order is the active
seat followed by the seats after it and then the seats before it. -/
theorem getPlayersToProcessIdx_eq {i n : Nat} (h : i < n) :
    getPlayersToProcessIdx i n =
      i :: ((List.range n).drop (i + 1) ++ (List.range n).take i) := by
  unfold getPlayersToProcessIdx
  have hlen : i < (List.range n).length := by simpa
  rw [List.drop_eq_getElem_cons hlen]
  simp

end Helpers

/-- C1: hostile (red-card) income is a transfer, not bank-issued money: the
engine's hostile phase (per non-active owner, move min(red-card income,
active player's current balance) from the active player to the owner, in
seating order starting after the active seat) coincides with the spec's
description in which every matching red card of each owner sequentially draws
min(cardIncome, the active player's money at that moment), so later owners
receive less or nothing once the active player is depleted. -/
theorem hostileIncome_is_sequential_transfer (players : List Player) (activeIdx : Nat)
    (roll : DiceRoll) (h : activeIdx < players.length) :
    processHostilePhase players activeIdx roll =
      specHostileResolution players activeIdx roll := by
  unfold processHostilePhase specHostileResolution
  rw [getPlayersToProcessIdx_eq h]
  simp only [List.foldl_cons]
  have hfirst : hostileStep roll activeIdx players activeIdx = players := by
    unfold hostileStep
    rw [if_pos rfl]
  rw [hfirst]
  exact foldl_hostileStep_eq roll activeIdx _ players
    fun j hj => mem_order_ne_active hj

/-- Witness for C1 at a concrete three-player table: the active player holds
3 coins, both other players own two Cafes each on a roll of 3. -/
theorem hostileIncome_is_sequential_transfer_witness :
    0 < ([Player.create "a" "A", twoCafeOwner "b" "B", twoCafeOwner "c" "C"] : List Player).length ∧
    processHostilePhase [Player.create "a" "A", twoCafeOwner "b" "B", twoCafeOwner "c" "C"] 0
        (DiceRoll.of [3]) =
      specHostileResolution [Player.create "a" "A", twoCafeOwner "b" "B", twoCafeOwner "c" "C"] 0
        (DiceRoll.of [3]) :=
  ⟨by decide,
   hostileIncome_is_sequential_transfer
     [Player.create "a" "A", twoCafeOwner "b" "B", twoCafeOwner "c" "C"] 0
     (DiceRoll.of [3]) (by decide)⟩

/-- C2: the claim says calculateIncome sums only green and blue cards, and the
repository's own bug test (IncomeCalculator.bug.test.ts) expects exactly that;
but the source applies no color filter, so a player owning only one red Cafe
earns 1 from calculateIncome on a roll of 3 where the claim and the test
demand 0. -/
theorem calculateIncome_includes_red_cards :
    calculateIncome cafeOnlyPlayer (DiceRoll.of [3]) = 1 ∧
    (registry .cafe).color = .red ∧
    (registry .cafe).activatesOn 3 = true := by
  decide

/-- C3: the per-card income formula of calculateIncome: every owned card
instance activating on the roll contributes base income plus the sum over
multiplier kinds of factor times the owner's count of that kind, plus one
exactly when the owner holds Shopping Center and the kind is bread or coffee;
and the multiplier example (2 cow establishments, one x3-per-cow card of base
income 0, matching roll) yields exactly 6. -/
theorem perCard_income_formula :
    (∀ (p : Player) (roll : DiceRoll),
      calculateIncome p roll =
        (allENames.map fun e =>
          p.counts e *
            (if (registry e).activatesOn roll.total then
              (registry e).income + multiplierIncome p (registry e) +
                shoppingBonus p (registry e)
            else 0)).sum) ∧
    calculateIncome cheeseExamplePlayer (DiceRoll.of [3, 4]) = 6 := by
  constructor
  · intro p roll
    unfold calculateIncome Player.getEstablishmentCards
    rw [List.map_flatMap, List.flatMap_def, List.sum_flatten, List.map_map]
    congr 1
    apply List.map_congr_left
    intro e _
    simp only [Function.comp_apply]
    rw [List.map_replicate, List.sum_replicate, smul_eq_mul]
  · decide

/-- C4: the forced trade validates in order (give not purple, take not purple,
active owns the give card, target owns the take card); any failure returns
success false with both players unchanged, and success atomically moves one
give card from active to target and one take card from target to active,
leaving money untouched. -/
theorem swapCards_validates_in_order_and_swaps (a o : Player) (g t : EName) :
    ((swapCards a o g t).1.success = false →
      (swapCards a o g t).2.1 = a ∧ (swapCards a o g t).2.2 = o) ∧
    ((swapCards a o g t).1.success = true ↔
      (registry g).color ≠ .purple ∧ (registry t).color ≠ .purple ∧
        0 < a.counts g ∧ 0 < o.counts t) ∧
    ((registry g).color = .purple →
      (swapCards a o g t).1.message =
        "Cannot swap purple cards (" ++ g.str ++ " is purple)") ∧
    ((registry g).color ≠ .purple → (registry t).color = .purple →
      (swapCards a o g t).1.message =
        "Cannot swap purple cards (" ++ t.str ++ " is purple)") ∧
    ((registry g).color ≠ .purple → (registry t).color ≠ .purple → a.counts g = 0 →
      (swapCards a o g t).1.message =
        a.name ++ " does not have " ++ g.str ++ " to give") ∧
    ((registry g).color ≠ .purple → (registry t).color ≠ .purple → 0 < a.counts g →
      o.counts t = 0 →
      (swapCards a o g t).1.message =
        o.name ++ " does not have " ++ t.str ++ " to take") ∧
    ((swapCards a o g t).1.success = true →
      (swapCards a o g t).2.1.money = a.money ∧
      (swapCards a o g t).2.2.money = o.money ∧
      (∀ e, (swapCards a o g t).2.1.counts e =
        a.counts e + (if e = t then 1 else 0) - (if e = g then 1 else 0)) ∧
      (∀ e, (swapCards a o g t).2.2.counts e =
        o.counts e + (if e = g then 1 else 0) - (if e = t then 1 else 0))) := by
  by_cases hg : (registry g).color = .purple
  · simp [swapCards, hg]
  · by_cases ht : (registry t).color = .purple
    · simp [swapCards, hg, ht]
    · by_cases ha : 0 < a.counts g
      · by_cases ho : 0 < o.counts t
        · have hswap :
              swapCards a o g t =
                (⟨true, a.name ++ " swapped " ++ g.str ++ " with " ++ o.name ++ " for " ++
                    t.str⟩,
                 ((a.removeEstablishment g).2).addEstablishment t,
                 ((o.addEstablishment g).removeEstablishment t).2) := by
            unfold swapCards
            rw [if_neg hg, if_neg ht]
            rw [if_neg (by simp [Player.hasEstablishment, ha])]
            rw [if_neg (by simp [Player.hasEstablishment, ho])]
          rw [hswap]
          refine ⟨by simp, by simp [hg, ht, ha, ho], by simp [hg], by simp [ht],
            by omega, by omega, ?_⟩
          intro _
          have hrm : (a.removeEstablishment g).2 =
              { a with counts := fun x => if x = g then a.counts g - 1 else a.counts x } := by
            unfold Player.removeEstablishment
            rw [if_neg (by omega)]
          have hrm2 : ((o.addEstablishment g).removeEstablishment t).2 =
              { (o.addEstablishment g) with
                counts := fun x =>
                  if x = t then (o.addEstablishment g).counts t - 1
                  else (o.addEstablishment g).counts x } := by
            unfold Player.removeEstablishment
            rw [if_neg ?_]
            unfold Player.addEstablishment
            by_cases hte : t = g <;> simp [hte] <;> omega
          refine ⟨by simp [hrm, Player.addEstablishment], ?_, ?_, ?_⟩
          · rw [hrm2]; simp [Player.addEstablishment]
          · intro e
            rw [hrm]
            unfold Player.addEstablishment
            simp only
            by_cases het : e = t <;> by_cases heg : e = g <;>
              simp [het, heg] <;> subst_eqs <;> simp_all <;> omega
          · intro e
            rw [hrm2]
            unfold Player.addEstablishment
            simp only
            by_cases het : e = t <;> by_cases heg : e = g <;>
              simp [het, heg] <;> subst_eqs <;> simp_all
        · have : swapCards a o g t =
              (⟨false, o.name ++ " does not have " ++ t.str ++ " to take"⟩, a, o) := by
            unfold swapCards
            rw [if_neg hg, if_neg ht]
            rw [if_neg (by simp [Player.hasEstablishment, ha])]
            rw [if_pos (by simp [Player.hasEstablishment]; omega)]
          rw [this]
          simp [hg, ht, ha]
          omega
      · have : swapCards a o g t =
            (⟨false, a.name ++ " does not have " ++ g.str ++ " to give"⟩, a, o) := by
          unfold swapCards
          rw [if_neg hg, if_neg ht]
          rw [if_pos (by simp [Player.hasEstablishment]; omega)]
        rw [this]
        simp [hg, ht]
        omega

/-- Witness for C4: a fresh player swapping a Bakery for the other fresh
player's Grain Field succeeds and updates both card counts. -/
theorem swapCards_validates_in_order_and_swaps_witness :
    (swapCards (Player.create "a" "A") (Player.create "b" "B") .bakery .grainField).1.success =
      true ∧
    (swapCards (Player.create "a" "A") (Player.create "b" "B") .bakery
        .grainField).2.1.counts .grainField = 2 ∧
    (swapCards (Player.create "a" "A") (Player.create "b" "B") .bakery
        .grainField).2.2.counts .bakery = 2 := by
  have h := swapCards_validates_in_order_and_swaps (Player.create "a" "A")
    (Player.create "b" "B") .bakery .grainField
  have hsucc : (swapCards (Player.create "a" "A") (Player.create "b" "B") .bakery
      .grainField).1.success = true :=
    h.2.1.mpr ⟨by decide, by decide, by decide, by decide⟩
  have hc := h.2.2.2.2.2.2 hsucc
  refine ⟨hsucc, ?_, ?_⟩
  · rw [hc.2.2.1 .grainField]; decide
  · rw [hc.2.2.2 .bakery]; decide

/-- The reduce of executeTVCenter picks the first seat holding the maximum
money: the returned index points at the returned player, no player has more
money, and every earlier seat has strictly less. -/
theorem pickRichestAux_spec (others : List Player) :
    ∀ (l : List Player) (i bi : Nat) (bp : Player),
      others.drop i = l → bi < i → others.get? bi = some bp →
      (∀ j q, j < i → others.get? j = some q → q.money ≤ bp.money) →
      (∀ j q, j < bi → others.get? j = some q → q.money < bp.money) →
      others.get? (pickRichestAux l i (bi, bp)).1 = some (pickRichestAux l i (bi, bp)).2 ∧
      (∀ j q, others.get? j = some q → q.money ≤ (pickRichestAux l i (bi, bp)).2.money) ∧
      (∀ j q, j < (pickRichestAux l i (bi, bp)).1 → others.get? j = some q →
        q.money < (pickRichestAux l i (bi, bp)).2.money) := by
  intro l
  induction l with
  | nil =>
      intro i bi bp hdrop hbi hget hle hlt
      have hlen : others.length ≤ i := by
        have := congrArg List.length hdrop
        simp [List.length_drop] at this
        omega
      refine ⟨hget, ?_, fun j q hj hq => hlt j q hj hq⟩
      intro j q hq
      have hjlen : j < others.length := by
        by_contra hge
        rw [List.get?_eq_getElem?, List.getElem?_eq_none (by omega)] at hq
        simp at hq
      exact hle j q (by omega) hq
  | cons p l ih =>
      intro i bi bp hdrop hbi hget hle hlt
      have hgi : others.get? i = some p := by
        have h0 : (others.drop i).get? 0 = some p := by rw [hdrop]; rfl
        rw [List.get?_eq_getElem?, List.getElem?_drop] at h0
        rw [List.get?_eq_getElem?]
        simpa using h0
      have hdl : others.drop (i + 1) = l := by
        have : others.drop (i + 1) = (others.drop i).drop 1 := by
          rw [List.drop_drop, Nat.add_comm]
        rw [this, hdrop]
        rfl
      show others.get? (pickRichestAux (p :: l) i (bi, bp)).1 = _ ∧ _
      unfold pickRichestAux
      by_cases hc : bp.money < p.money
      · simp only [hc, if_pos]
        apply ih (i + 1) i p hdl (by omega) hgi
        · intro j q hj hq
          rcases Nat.lt_succ_iff_lt_or_eq.mp hj with hj' | hj'
          · exact le_of_lt (lt_of_le_of_lt (hle j q hj' hq) hc)
          · subst hj'
            rw [hgi] at hq
            injection hq with hq
            subst hq
            exact le_refl _
        · intro j q hj hq
          exact lt_of_le_of_lt (hle j q (by omega) hq) hc
      · simp only [hc, if_neg, if_false]
        apply ih (i + 1) bi bp hdl (by omega) hget
        · intro j q hj hq
          rcases Nat.lt_succ_iff_lt_or_eq.mp hj with hj' | hj'
          · exact hle j q hj' hq
          · subst hj'
            rw [hgi] at hq
            injection hq with hq
            subst hq
            omega
        · exact hlt

/-- C5: the TV Center resolver is a no-op with a descriptive message when
there are no other players; otherwise it picks the other player with the
greatest money, ties broken in favor of the first encountered in seating
order, and transfers min(5, that player's money) from them to the active
player, leaving every other seat unchanged. -/
theorem tvCenter_takes_from_first_richest (active : Player) (others : List Player) :
    (others = [] →
      executeTVCenter active others =
        (⟨0, "No other players to take coins from (TV Center)"⟩, active, others)) ∧
    (others ≠ [] →
      ∃ i rp, others.get? i = some rp ∧
        (∀ j q, others.get? j = some q → q.money ≤ rp.money) ∧
        (∀ j q, j < i → others.get? j = some q → q.money < rp.money) ∧
        executeTVCenter active others =
          (⟨min 5 rp.money,
            "Took " ++ Nat.repr (min 5 rp.money) ++ " coins from " ++ rp.name ++
              " (TV Center)"⟩,
           active.addMoney (min 5 rp.money),
           others.set i (rp.removeMoney (min 5 rp.money)))) := by
  constructor
  · intro h
    subst h
    rfl
  · intro h
    match others, h with
    | o :: rest, _ =>
        obtain ⟨hgets, hmax, hfirst⟩ :=
          pickRichestAux_spec (o :: rest) rest 1 0 o rfl (by omega) rfl
            (by
              intro j q hj hq
              interval_cases j
              injection hq with hq
              subst hq
              exact le_refl _)
            (by intro j q hj hq; omega)
        refine ⟨(pickRichestAux rest 1 (0, o)).1, (pickRichestAux rest 1 (0, o)).2,
          hgets, hmax, hfirst, ?_⟩
        show executeTVCenter active (o :: rest) = _
        unfold executeTVCenter
        by_cases hpay : 0 < min 5 (pickRichestAux rest 1 (0, o)).2.money
        · simp only [hpay, if_pos]
        · simp only [hpay, if_neg, if_false]
          have hz : min 5 (pickRichestAux rest 1 (0, o)).2.money = 0 := by omega
          rw [hz]
          have h1 : (pickRichestAux rest 1 (0, o)).2.removeMoney 0 =
              (pickRichestAux rest 1 (0, o)).2 := by
            simp [Player.removeMoney]
          have h2 : active.addMoney 0 = active := by simp [Player.addMoney]
          rw [h1, h2, set_get?_self _ _ _ hgets]

/-- Witness for C5 at the test scenario: Bob (23 coins) is richer than
Charlie (8 coins), so the resolver takes 5 from Bob. -/
theorem tvCenter_takes_from_first_richest_witness :
    ∃ i rp,
      ([(Player.create "p2" "Bob").addMoney 20,
        (Player.create "p3" "Charlie").addMoney 5] : List Player).get? i = some rp ∧
      (∀ j q, ([(Player.create "p2" "Bob").addMoney 20,
        (Player.create "p3" "Charlie").addMoney 5] : List Player).get? j = some q →
          q.money ≤ rp.money) ∧
      (∀ j q, j < i → ([(Player.create "p2" "Bob").addMoney 20,
        (Player.create "p3" "Charlie").addMoney 5] : List Player).get? j = some q →
          q.money < rp.money) ∧
      executeTVCenter (Player.create "p1" "Alice")
          [(Player.create "p2" "Bob").addMoney 20,
           (Player.create "p3" "Charlie").addMoney 5] =
        (⟨min 5 rp.money,
          "Took " ++ Nat.repr (min 5 rp.money) ++ " coins from " ++ rp.name ++
            " (TV Center)"⟩,
         (Player.create "p1" "Alice").addMoney (min 5 rp.money),
         [(Player.create "p2" "Bob").addMoney 20,
          (Player.create "p3" "Charlie").addMoney 5].set i
            (rp.removeMoney (min 5 rp.money))) :=
  (tvCenter_takes_from_first_richest (Player.create "p1" "Alice")
    [(Player.create "p2" "Bob").addMoney 20,
     (Player.create "p3" "Charlie").addMoney 5]).2 (by simp)

/-- Counterexample to C6: a player with Radio Tower but without Terminal whose
Strategy requests a 2-die reroll receives a 2-die replacement roll, not the
1-die roll the claim requires. -/
theorem reroll_terminal_constraint_cex :
    executeTurnRollDice false true 1 (some 2) [3, 4, 5] = [4, 5] ∧
    (executeTurnRollDice false true 1 (some 2) [3, 4, 5]).length ≠ 1 := by
  decide

/-- C6 as amended: the orchestrator's reroll step applies no Terminal
constraint: whenever the active player holds Radio Tower and the Strategy
returns a nonzero reroll count n (with enough faces in the stream), the
replacement roll uses exactly n dice regardless of the Terminal landmark. -/
theorem reroll_uses_strategy_count_unclamped (hasTerminal : Bool) (req n : Nat)
    (stream : List Nat) (hn : n ≠ 0)
    (hlen : n ≤ (stream.drop (initialDiceCount hasTerminal req)).length) :
    (executeTurnRollDice hasTerminal true req (some n) stream).length = n := by
  unfold executeTurnRollDice
  simp only [if_pos, hn, ne_eq, not_false_eq_true, if_true]
  exact List.length_take_of_le hlen

/-- Witness for C6 (amended): no Terminal, reroll count 2, three faces in the
stream. -/
theorem reroll_uses_strategy_count_unclamped_witness :
    (2 : Nat) ≠ 0 ∧
    2 ≤ (([3, 4, 5] : List Nat).drop (initialDiceCount false 1)).length ∧
    (executeTurnRollDice false true 1 (some 2) [3, 4, 5]).length = 2 :=
  ⟨by decide, by decide,
   reroll_uses_strategy_count_unclamped false 1 2 [3, 4, 5] (by decide) (by decide)⟩

/-- C7: establishment purchase fails in order (out of stock, cannot afford,
already-own singular), each failure returning success false with a message
and leaving the player and market unchanged; otherwise it decrements the
market quantity, debits the player by the cost, and adds one copy. -/
theorem purchaseEstablishment_spec (p : Player) (e : EName) (m : MarketDeck) :
    (m.quantities e = 0 →
      purchaseEstablishment p e m =
        (⟨false, e.str ++ " is out of stock", none⟩, p, m)) ∧
    (0 < m.quantities e → p.money < (registry e).cost →
      purchaseEstablishment p e m =
        (⟨false, "Cannot afford " ++ e.str ++ " (costs " ++ Nat.repr (registry e).cost ++
            ", have " ++ Nat.repr p.money ++ ")", none⟩, p, m)) ∧
    (0 < m.quantities e → (registry e).cost ≤ p.money →
      (registry e).isSingular = true → 0 < p.counts e →
      purchaseEstablishment p e m =
        (⟨false, "Already own " ++ e.str ++ " (singular card)", none⟩, p, m)) ∧
    (0 < m.quantities e → (registry e).cost ≤ p.money →
      ((registry e).isSingular = false ∨ p.counts e = 0) →
      (purchaseEstablishment p e m).1 =
        ⟨true, "Purchased " ++ e.str ++ " for " ++ Nat.repr (registry e).cost ++ " coins",
         some .establishment⟩ ∧
      (purchaseEstablishment p e m).2.1.money = p.money - (registry e).cost ∧
      (purchaseEstablishment p e m).2.1.counts e = p.counts e + 1 ∧
      (∀ x, x ≠ e → (purchaseEstablishment p e m).2.1.counts x = p.counts x) ∧
      (purchaseEstablishment p e m).2.1.landmarks = p.landmarks ∧
      (purchaseEstablishment p e m).2.2.quantities e = m.quantities e - 1 ∧
      (∀ x, x ≠ e → (purchaseEstablishment p e m).2.2.quantities x = m.quantities x)) := by
  refine ⟨?_, ?_, ?_, ?_⟩
  · intro h0
    unfold purchaseEstablishment
    rw [if_pos (by simp [MarketDeck.isAvailable, h0])]
  · intro h0 hpoor
    unfold purchaseEstablishment
    rw [if_neg (by simp [MarketDeck.isAvailable]; omega)]
    rw [if_pos (by simp [Player.canAfford]; omega)]
  · intro h0 hafford hsing howns
    unfold purchaseEstablishment
    rw [if_neg (by simp [MarketDeck.isAvailable]; omega)]
    rw [if_neg (by simp [Player.canAfford]; omega)]
    rw [if_pos (by simp [hsing, Player.hasEstablishment]; omega)]
  · intro h0 hafford hok
    unfold purchaseEstablishment
    rw [if_neg (by simp [MarketDeck.isAvailable]; omega)]
    rw [if_neg (by simp [Player.canAfford]; omega)]
    rw [if_neg (by
      simp [Player.hasEstablishment]
      rcases hok with hok | hok <;> simp [hok])]
    refine ⟨rfl, by simp [Player.addEstablishment, Player.removeMoney], ?_, ?_, ?_, ?_, ?_⟩
    · simp [Player.addEstablishment, Player.removeMoney]
    · intro x hx
      simp [Player.addEstablishment, Player.removeMoney, hx]
    · simp [Player.addEstablishment, Player.removeMoney]
    · simp [MarketDeck.purchase, MarketDeck.isAvailable, h0]
    · intro x hx
      simp [MarketDeck.purchase, MarketDeck.isAvailable, h0, hx]

/-- Witness for C7: a fresh player with 13 coins buying a Cafe from a full
market pays 2 and receives the card. -/
theorem purchaseEstablishment_spec_witness :
    0 < (MarketDeck.mk "market-1" fun _ => 6).quantities .cafe ∧
    (registry .cafe).cost ≤ ((Player.create "p1" "Alice").addMoney 10).money ∧
    (purchaseEstablishment ((Player.create "p1" "Alice").addMoney 10) .cafe
        (MarketDeck.mk "market-1" fun _ => 6)).2.1.money = 11 ∧
    (purchaseEstablishment ((Player.create "p1" "Alice").addMoney 10) .cafe
        (MarketDeck.mk "market-1" fun _ => 6)).2.2.quantities .cafe = 5 := by
  have h := (purchaseEstablishment_spec ((Player.create "p1" "Alice").addMoney 10) .cafe
    (MarketDeck.mk "market-1" fun _ => 6)).2.2.2 (by decide) (by decide) (Or.inl (by decide))
  exact ⟨by decide, by decide, by rw [h.2.1]; decide, by rw [h.2.2.2.2.2.1]; decide⟩

/-- C8: for every registered establishment name whose market quantity is zero,
the convenience entry point returns the Unknown-card failure rather than the
out-of-stock message, because the out-of-stock establishment result falls
through to the landmark lookup, which throws and is caught; the player and
market are unchanged. -/
theorem purchase_out_of_stock_reports_unknown_card (e : EName) (p : Player)
    (m : MarketDeck) (h0 : m.quantities e = 0) :
    purchase p e.str m = (⟨false, "Unknown card: " ++ e.str, none⟩, p, m) := by
  have hout : purchaseEstablishment p e m =
      (⟨false, e.str ++ " is out of stock", none⟩, p, m) := by
    unfold purchaseEstablishment
    rw [if_pos (by simp [MarketDeck.isAvailable, h0])]
  cases e <;>
    simp [purchase, getEstablishmentByStr, getLandmarkByStr, allENames, allLNames,
      List.find?, EName.str, LName.str, hout]

/-- Witness for C8: an empty market and the name Cafe. -/
theorem purchase_out_of_stock_reports_unknown_card_witness :
    (MarketDeck.mk "market-1" fun _ => 0).quantities .cafe = 0 ∧
    purchase (Player.create "p1" "Alice") (EName.str .cafe)
        (MarketDeck.mk "market-1" fun _ => 0) =
      (⟨false, "Unknown card: " ++ EName.str .cafe, none⟩, Player.create "p1" "Alice",
       MarketDeck.mk "market-1" fun _ => 0) :=
  ⟨rfl,
   purchase_out_of_stock_reports_unknown_card .cafe (Player.create "p1" "Alice")
     (MarketDeck.mk "market-1" fun _ => 0) rfl⟩

/-- C9: a market purchase returns the card and decrements the quantity by one
exactly when the quantity is positive, and is a no-op returning none
otherwise; consequently, over any successfully executed sequence of purchase
and restock operations, each quantity stays non-negative and equals the
initial quantity plus the restocked amounts minus the successful purchases. -/
theorem market_purchase_conservation :
    (∀ (m : MarketDeck) (e : EName),
      (0 < m.quantities e →
        (m.purchase e).1 = some (registry e) ∧
        (m.purchase e).2.quantities e = m.quantities e - 1 ∧
        ∀ x, x ≠ e → (m.purchase e).2.quantities x = m.quantities x) ∧
      (m.quantities e = 0 → m.purchase e = (none, m))) ∧
    (∀ (ops : List MarketOp) (m m' : MarketDeck), runOps m ops = some m' →
      ∀ e, 0 ≤ (m'.quantities e : ℤ) ∧
        (m'.quantities e : ℤ) =
          (m.quantities e : ℤ) + restockSum ops e - succPurchases m ops e) := by
  constructor
  · intro m e
    constructor
    · intro h0
      unfold MarketDeck.purchase MarketDeck.isAvailable
      rw [if_pos (by simpa using h0)]
      exact ⟨rfl, by simp, fun x hx => by simp [hx]⟩
    · intro h0
      unfold MarketDeck.purchase MarketDeck.isAvailable
      rw [if_neg (by simp [h0])]
  · intro ops
    induction ops with
    | nil =>
        intro m m' hrun e
        unfold runOps at hrun
        injection hrun with hrun
        subst hrun
        simp [restockSum, succPurchases]
    | cons op rest ih =>
        intro m m' hrun e
        cases op with
        | purchase c =>
            rw [runOps] at hrun
            have hpd : (m.purchase c).2 =
                (if 0 < m.quantities c then
                  { id := m.id,
                    quantities := fun x =>
                      if x = c then m.quantities c - 1 else m.quantities x }
                 else m) := by
              unfold MarketDeck.purchase MarketDeck.isAvailable
              by_cases hc : 0 < m.quantities c
              · rw [if_pos (by simpa using hc), if_pos hc]
              · rw [if_neg (by simpa using hc), if_neg hc]
            by_cases hc : 0 < m.quantities c
            · rw [if_pos hc] at hpd
              rw [hpd] at hrun
              obtain ⟨hge, heq⟩ := ih _ _ hrun e
              refine ⟨hge, ?_⟩
              rw [heq]
              simp only [restockSum, succPurchases]
              rw [hpd]
              simp only [MarketDeck.isAvailable]
              by_cases hce : c = e
              · subst hce
                simp [hc]
                omega
              · simp [hce, Ne.symm hce]
            · rw [if_neg hc] at hpd
              rw [hpd] at hrun
              obtain ⟨hge, heq⟩ := ih _ _ hrun e
              refine ⟨hge, ?_⟩
              rw [heq]
              simp only [restockSum, succPurchases]
              rw [hpd]
              simp [MarketDeck.isAvailable, hc]
        | restock c q =>
            rw [runOps] at hrun
            unfold MarketDeck.restock at hrun
            by_cases hq : q < 0
            · rw [if_pos hq] at hrun
              simp at hrun
            · rw [if_neg hq] at hrun
              simp only at hrun
              obtain ⟨hge, heq⟩ := ih _ _ hrun e
              refine ⟨hge, ?_⟩
              rw [heq]
              simp only [restockSum, succPurchases]
              unfold MarketDeck.restock
              rw [if_neg hq]
              simp only
              by_cases hce : c = e
              · subst hce
                simp
                omega
              · simp [hce, Ne.symm hce]

/-- Witness for C9: starting from one Cafe, two purchases (one failing), a
restock of 3 and another purchase leave 2 Cafes. -/
theorem market_purchase_conservation_witness :
    runOps (MarketDeck.mk "m" fun _ => 1)
        [.purchase .cafe, .purchase .cafe, .restock .cafe 3, .purchase .cafe] =
      some ((runOps (MarketDeck.mk "m" fun _ => 1)
        [.purchase .cafe, .purchase .cafe, .restock .cafe 3, .purchase .cafe]).getD
          (MarketDeck.mk "m" fun _ => 1)) ∧
    0 ≤ (((runOps (MarketDeck.mk "m" fun _ => 1)
        [.purchase .cafe, .purchase .cafe, .restock .cafe 3, .purchase .cafe]).getD
          (MarketDeck.mk "m" fun _ => 1)).quantities .cafe : ℤ) ∧
    (((runOps (MarketDeck.mk "m" fun _ => 1)
        [.purchase .cafe, .purchase .cafe, .restock .cafe 3, .purchase .cafe]).getD
          (MarketDeck.mk "m" fun _ => 1)).quantities .cafe : ℤ) =
      ((MarketDeck.mk "m" fun _ => 1).quantities .cafe : ℤ) +
        restockSum [.purchase .cafe, .purchase .cafe, .restock .cafe 3, .purchase .cafe]
          .cafe -
        succPurchases (MarketDeck.mk "m" fun _ => 1)
          [.purchase .cafe, .purchase .cafe, .restock .cafe 3, .purchase .cafe] .cafe := by
  have hrun : runOps (MarketDeck.mk "m" fun _ => 1)
      [.purchase .cafe, .purchase .cafe, .restock .cafe 3, .purchase .cafe] =
      some ((runOps (MarketDeck.mk "m" fun _ => 1)
        [.purchase .cafe, .purchase .cafe, .restock .cafe 3, .purchase .cafe]).getD
          (MarketDeck.mk "m" fun _ => 1)) := by
    rfl
  have h := market_purchase_conservation.2
    [.purchase .cafe, .purchase .cafe, .restock .cafe 3, .purchase .cafe]
    (MarketDeck.mk "m" fun _ => 1) _ hrun .cafe
  exact ⟨hrun, h.1, h.2⟩

/-- Counterexample to C10: a game whose stored winner is a player not in the
players list serializes with that winner id, but deserializing resolves the
winner to null, so the round-tripped serialization differs. -/
theorem game_roundtrip_cex :
    (Game.fromJSON (Game.toJSON strayWinnerGame)).map Game.toJSON ≠
      some (Game.toJSON strayWinnerGame) := by
  intro h
  have hkey : Game.fromJSON (Game.toJSON strayWinnerGame) =
      some { strayWinnerGame with winner := none } := by rfl
  rw [hkey, Option.map_some'] at h
  injection h with h
  have hw := congrArg GameJson.winner h
  simp [Game.toJSON, strayWinnerGame] at hw

/-- C10 as amended: the serialization round-trip reproduces identical
serialized output for every Game satisfying the constructor's player-count
bound and the DiceRoll constructor's validity (both enforced at construction
in the source) whose winner, when present, has a non-empty id belonging to
some player in the list. -/
theorem game_roundtrip_amended (G : Game)
    (hcount : 2 ≤ G.players.length ∧ G.players.length ≤ 4)
    (hroll : ∀ r, G.lastDiceRoll = some r → diceRollValid r = true)
    (hwin : ∀ w, G.winner = some w → w.id ≠ "" ∧ ∃ p ∈ G.players, p.id = w.id) :
    (Game.fromJSON (Game.toJSON G)).map Game.toJSON = some (Game.toJSON G) := by
  have hcomp : Player.fromJSON ∘ Player.toJSON = id := rfl
  have hplayers : (G.players.map Player.toJSON).map Player.fromJSON = G.players := by
    rw [List.map_map, hcomp, List.map_id]
  have hfound : ∀ w, G.winner = some w →
      ∃ q, (G.players.find? fun p => p.id == w.id) = some q ∧ q.id = w.id := by
    intro w hw
    obtain ⟨-, p, hp, hpid⟩ := hwin w hw
    have hsome : ((G.players.find? fun p => p.id == w.id)).isSome :=
      List.find?_isSome.mpr ⟨p, hp, by simp [hpid]⟩
    obtain ⟨q, hq⟩ := Option.isSome_iff_exists.mp hsome
    refine ⟨q, hq, ?_⟩
    have := List.find?_some hq
    simpa using this
  unfold Game.fromJSON Game.toJSON
  simp only [hplayers]
  cases hW : G.winner with
  | none =>
      simp only [Option.map_none']
      cases hR : G.lastDiceRoll with
      | none =>
          simp only [Option.map_none']
          unfold mkGame
          rw [if_pos hcount]
          simp [Game.toJSON, MarketDeck.fromJSON, MarketDeck.toJSON, hplayers, hW, hR]
      | some r =>
          simp only [Option.map_some']
          unfold DiceRoll.fromJSON
          simp only [DiceRoll.toJSON]
          rw [show ({ total := r.total, dice := r.dice } : DiceRoll) = r from rfl]
          rw [if_pos (hroll r hR)]
          rw [Option.some_bind]
          unfold mkGame
          rw [if_pos hcount]
          simp [Game.toJSON, DiceRoll.toJSON, MarketDeck.fromJSON, MarketDeck.toJSON,
            hplayers, hW, hR]
  | some w =>
      obtain ⟨hne, -⟩ := hwin w hW
      obtain ⟨q, hq, hqid⟩ := hfound w hW
      simp only [Option.map_some']
      rw [show (w.id == "") = false from beq_eq_false_iff_ne.mpr hne, if_neg (by simp)]
      rw [hq]
      cases hR : G.lastDiceRoll with
      | none =>
          simp only [Option.map_none']
          unfold mkGame
          rw [if_pos hcount]
          simp [Game.toJSON, MarketDeck.fromJSON, MarketDeck.toJSON, hplayers, hW, hR, hqid]
      | some r =>
          simp only [Option.map_some']
          unfold DiceRoll.fromJSON
          simp only [DiceRoll.toJSON]
          rw [show ({ total := r.total, dice := r.dice } : DiceRoll) = r from rfl]
          rw [if_pos (hroll r hR)]
          rw [Option.some_bind]
          unfold mkGame
          rw [if_pos hcount]
          simp [Game.toJSON, DiceRoll.toJSON, MarketDeck.fromJSON, MarketDeck.toJSON,
            hplayers, hW, hR, hqid]

/-- Witness for C10 (amended): a two-player game whose winner is its first
player and whose last roll is a single valid die. -/
theorem game_roundtrip_amended_witness :
    2 ≤ resolvableWinnerGame.players.length ∧
    (Game.fromJSON (Game.toJSON resolvableWinnerGame)).map Game.toJSON =
      some (Game.toJSON resolvableWinnerGame) :=
  ⟨by decide,
   game_roundtrip_amended resolvableWinnerGame ⟨by decide, by decide⟩
     (by
       intro r hr
       have : some (⟨3, [3]⟩ : DiceRoll) = some r := hr
       injection this with h
       rw [← h]
       decide)
     (by
       intro w hw
       have : some (Player.create "p1" "Alice") = some w := hw
       injection this with h
       subst h
       exact ⟨by decide, Player.create "p1" "Alice", by simp [resolvableWinnerGame], rfl⟩)⟩

end MachiKoro
